import Mathlib

/-!
Shallow embedding of the VibeCursor desktop utility (src/frontend.py and
src/main.py) together with proofs of the specified behavioural properties.

Python wall-clock times become rationals; the shared mutable globals
(`macro`, `_keys_held`, `recording_flag`, the filesystem, the audio queue)
become explicit state that is threaded through the translated functions;
the OS listener callbacks become fold steps over an explicit event list.
-/

namespace VC

/-- Mouse button carried by a pynput click event. -/
inductive Button
  | left
  | middle
  | right
deriving DecidableEq

/-- Embedding of a pynput key: the special modifier keys used by the code,
a `KeyCode` with its optional character and optional virtual-key code, or
any other key. -/
inductive Key
  | ctrl_l
  | ctrl_r
  | shift_l
  | keyCode (char : Option Char) (vk : Option Nat)
  | special (name : String)
deriving DecidableEq

/-- Payload stored in an action record: either the three-component
`(x, y, button)` tuple of a mouse record or the tuple of key names of a
hotkey record. -/
inductive StepData
  | ptr (x y : Int) (btn : Button)
  | keys (ks : List String)
deriving DecidableEq

/-- One action record of the macro list: the dict
`{"t": offset, "type": kind, "data": payload}` built by `record_macro`. -/
structure Step where
  t : ℚ
  type : String
  data : StepData
deriving DecidableEq

/-- Observable side effects performed by `play_macro`. -/
inductive Effect
  | copy (text : String)
  | waitUntil (t : ℚ)
  | moveTo (x y : Int)
  | click
  | hotkey (ks : List String)
deriving DecidableEq

/-- Clock update caused by one effect: the busy-wait loop
`while time.time() - t0 < step["t"]: time.sleep(0.002)` blocks until the
elapsed time reaches the offset; every other effect leaves the (idealised)
clock unchanged. -/
def clockUpd (t : ℚ) (e : Effect) : ℚ :=
  match e with
  | Effect.waitUntil u => max t u
  | _ => t

/-- Elapsed time after running a list of effects, starting from clock `t`. -/
def elapsedFrom (t : ℚ) (es : List Effect) : ℚ :=
  es.foldl clockUpd t

/-- Elapsed time of a whole effect trace (clock starts at 0 at `t0`). -/
def elapsedAfter (es : List Effect) : ℚ :=
  elapsedFrom 0 es

/-- Body of the `play_macro` loop after the busy wait: dispatch on
`step["type"]`.  A mouse record unpacks its three-component payload and
injects a move and a click; a hotkey record injects the hotkey; a record
of any other type falls through the `if`/`elif` and is skipped.  The
boolean is `false` when the Python code would raise (tuple unpacking of a
wrong-shape payload, or `pyautogui.hotkey` applied to non-key data). -/
def injectStep (s : Step) : List Effect × Bool :=
  if s.type = "mouse" then
    match s.data with
    | StepData.ptr x y _ => ([Effect.moveTo x y, Effect.click], true)
    | StepData.keys _ => ([], false)
  else if s.type = "hotkey" then
    match s.data with
    | StepData.keys ks => ([Effect.hotkey ks], true)
    | StepData.ptr _ _ _ => ([], false)
  else ([], true)

/-- One iteration of the `play_macro` loop: busy-wait until the record's
offset, then perform the record's injection. -/
def playStep (s : Step) : List Effect × Bool :=
  (Effect.waitUntil s.t :: (injectStep s).1, (injectStep s).2)

/-- The `for step in macro` loop of `play_macro`: effects accumulate in
list order; a raising step ends the loop with the effects performed so
far and failure status. -/
def playSteps : List Step → List Effect × Bool
  | [] => ([], true)
  | s :: rest =>
    if (playStep s).2 then
      ((playStep s).1 ++ (playSteps rest).1, (playSteps rest).2)
    else ((playStep s).1, false)

/-- Embedding of `play_macro(text)` run against the recorded list `steps`:
`if not macro: return` yields the empty trace; otherwise the text is
copied to the clipboard and the loop runs. -/
def playMacroTrace (steps : List Step) (text : String) : List Effect × Bool :=
  if steps.isEmpty then ([], true)
  else (Effect.copy text :: (playSteps steps).1, (playSteps steps).2)

/-- State visible to the macro recorder: the shared `macro` list, the
shared `_keys_held` set, the `stop_record` flag, and whether each of the
two pynput listeners is still delivering events (a callback that returned
`False` has stopped its listener). -/
structure RecorderState where
  steps : List Step
  keysHeld : Finset Key
  stopFlag : Bool
  mouseAlive : Bool
  kbAlive : Bool
deriving DecidableEq

/-- One input event delivered by the OS hooks during macro recording,
tagged with the wall-clock offset `time.time() - start` at which the
callback observes it. -/
inductive REvent
  | click (t : ℚ) (x y : Int) (btn : Button) (pressed : Bool)
  | press (t : ℚ) (k : Key)
  | release (t : ℚ) (k : Key)
deriving DecidableEq

/-- The mouse record appended on a pressed click:
`{"t": t, "type": "mouse", "data": (x, y, btn)}`. -/
def mkMouseStep (t : ℚ) (x y : Int) (btn : Button) : Step :=
  { t := t, type := "mouse", data := StepData.ptr x y btn }

/-- The hotkey record appended on a Ctrl+V release:
`{"t": t, "type": "hotkey", "data": ("ctrl", "v")}`. -/
def mkHotkeyStep (t : ℚ) : Step :=
  { t := t, type := "hotkey", data := StepData.keys ["ctrl", "v"] }

/-- Test `isinstance(key, KeyCode) and key.char == 's'` of the recorder's
`on_press` callback. -/
def isStopKey (k : Key) : Bool :=
  match k with
  | Key.keyCode (some c) _ => c = 's'
  | _ => false

/-- Test `isinstance(key, KeyCode) and key.vk == 0x56` of the recorder's
`on_release` callback. -/
def isVkV (k : Key) : Bool :=
  match k with
  | Key.keyCode _ (some vk) => vk = 86
  | _ => false

/-- The recorder's `on_click` callback: once the stop flag is set the next
click stops the mouse listener without recording; otherwise a pressed
click appends a mouse record. -/
def on_click (s : RecorderState) (t : ℚ) (x y : Int) (btn : Button)
    (pressed : Bool) : RecorderState :=
  if s.mouseAlive = false then s
  else if s.stopFlag then { s with mouseAlive := false }
  else if pressed then { s with steps := s.steps ++ [mkMouseStep t x y btn] }
  else s

/-- The recorder's `on_press` callback: the character `s` sets the stop
flag and stops the keyboard listener; every other key is added to the
shared held-keys set. -/
def on_press (s : RecorderState) (k : Key) : RecorderState :=
  if s.kbAlive = false then s
  else if isStopKey k then { s with stopFlag := true, kbAlive := false }
  else { s with keysHeld := insert k s.keysHeld }

/-- The recorder's `on_release` callback: releasing the key with virtual
code `0x56` while a Ctrl key is held appends a hotkey record; the released
key is then discarded from the held-keys set. -/
def on_release (s : RecorderState) (t : ℚ) (k : Key) : RecorderState :=
  if s.kbAlive = false then s
  else
    let s1 :=
      if isVkV k = true ∧ (Key.ctrl_l ∈ s.keysHeld ∨ Key.ctrl_r ∈ s.keysHeld)
      then { s with steps := s.steps ++ [mkHotkeyStep t] }
      else s
    { s1 with keysHeld := s1.keysHeld.erase k }

/-- Dispatch one recorded input event to the matching callback. -/
def handleREvent (s : RecorderState) (e : REvent) : RecorderState :=
  match e with
  | REvent.click t x y btn pressed => on_click s t x y btn pressed
  | REvent.press _ k => on_press s k
  | REvent.release t k => on_release s t k

/-- Embedding of `record_macro()`: starting from the shared `macro` list
`prior` and held-keys set `held`, the function first clears the macro list
(`macro.clear()`), then processes the incoming input events with the three
callbacks until both listeners have stopped and the event stream ends. -/
def recordMacroRun (prior : List Step) (held : Finset Key)
    (evs : List REvent) : RecorderState :=
  let s0 : RecorderState :=
    { steps := prior, keysHeld := held, stopFlag := false,
      mouseAlive := true, kbAlive := true }
  let s1 : RecorderState := { s0 with steps := [] }
  evs.foldl handleREvent s1

/-- The key set `KILL_COMBO = {Key.ctrl_l, Key.shift_l, KeyCode(char='q')}`. -/
def KILL_COMBO : Finset Key :=
  {Key.ctrl_l, Key.shift_l, Key.keyCode (some 'q') none}

/-- The `_kill_press` handler: a combo key is added to the held set, and if
the held set then contains the whole combo the process exits with status 1
(`os._exit(1)`); the returned option is the exit status, `none` when the
process keeps running. -/
def _kill_press (held : Finset Key) (k : Key) : Finset Key × Option Nat :=
  if k ∈ KILL_COMBO then
    let h := insert k held
    if KILL_COMBO ⊆ h then (h, some 1) else (h, none)
  else (held, none)

/-- The `_kill_release` handler: `_keys_held.discard(key)`. -/
def _kill_release (held : Finset Key) (k : Key) : Finset Key :=
  held.erase k

/-- A key event seen by the global kill listener. -/
inductive KEvent
  | press (k : Key)
  | release (k : Key)
deriving DecidableEq

/-- State of the kill listener: the held-keys set it maintains and the exit
status once `os._exit` has been called (after which the dead process
handles no further events). -/
structure KillState where
  held : Finset Key
  exitCode : Option Nat
deriving DecidableEq

/-- One transition of the kill listener. -/
def killRunStep (s : KillState) (e : KEvent) : KillState :=
  match s.exitCode with
  | some _ => s
  | none =>
    match e with
    | KEvent.press k =>
      { held := (_kill_press s.held k).1, exitCode := (_kill_press s.held k).2 }
    | KEvent.release k =>
      { held := _kill_release s.held k, exitCode := none }

/-- Run of the kill listener over a key-event stream, starting from the
initial empty `_keys_held` set. -/
def killRun (evs : List KEvent) : KillState :=
  evs.foldl killRunStep { held := ∅, exitCode := none }

/-- A written waveform file: sample rate, channel count (the array written
by `record_until_toggle` has shape `(n, 1)`, one channel), and samples. -/
structure WavFile where
  rate : Nat
  channels : Nat
  samples : List Int
deriving DecidableEq

/-- Filesystem view for waveform writes: association of paths to the file
most recently written there. -/
def lookupFile (fs : List (String × WavFile)) (p : String) : Option WavFile :=
  (fs.find? (fun e => e.1 == p)).map (fun e => e.2)

/-- Embedding of `record_until_toggle(path, sr)`.  Each loop iteration
while the recording flag stays true either obtains one chunk from the
audio queue (`some chunk`) or times out empty-handed (`none`); `iters`
lists those outcomes in order.  With no captured chunks the function
returns `False` and writes nothing; otherwise it concatenates the chunks
(`np.concatenate(frames, axis=0)`), writes the single-channel waveform
with `scipy.io.wavfile.write(path, sr, audio)`, and returns `True`. -/
def record_until_toggle (iters : List (Option (List Int)))
    (fs : List (String × WavFile)) (path : String) (sr : Nat) :
    List (String × WavFile) × Bool :=
  let frames := iters.filterMap id
  if frames.isEmpty then (fs, false)
  else ((path, { rate := sr, channels := 1, samples := frames.flatten }) :: fs, true)

/-- An HTTP response as the client sees it: the `r.ok` flag and the parsed
JSON object body. -/
structure HttpResponse where
  ok : Bool
  body : List (String × String)
deriving DecidableEq

/-- Python `dict.get(k, default)` without the default: lookup in the parsed
JSON object. -/
def jsonGet (body : List (String × String)) (k : String) : Option String :=
  (body.find? (fun e => e.1 == k)).map (fun e => e.2)

/-- Embedding of `send_audio`'s treatment of the server response:
`r.json().get('text', '<err>') if r.ok else '<err>'`. -/
def send_audio (r : HttpResponse) : String :=
  if r.ok then (jsonGet r.body "text").getD "<err>" else "<err>"

/-- Outcome of the `/transcribe` handler: a JSON 200 response, an
`HTTPException` raised by the handler, or an exception that escaped the
handler's `try` blocks. -/
inductive HandlerOutcome
  | jsonOk (body : List (String × String))
  | httpError (status : Nat) (detail : String)
  | uncaught (msg : String)
deriving DecidableEq

/-- The handler's `finally` clause:
`if os.path.exists(temp_path): os.remove(temp_path)`. -/
def removeIfExists (fs : List String) (p : String) : List String :=
  if p ∈ fs then fs.erase p else fs

/-- Embedding of `transcribe_audio` from src/main.py.  `fs` is the set of
existing paths, `tempPath` the fresh name chosen by
`NamedTemporaryFile(delete=False)`, `copyRes` the outcome of
`shutil.copyfileobj` (an error escapes the handler before the inner
`try`/`finally` is entered, leaking the temp file), and `oracle` the
outcome of `model.transcribe` on a path.  Both the success return and the
`HTTPException` path run the `finally` clause that removes the temp file. -/
def transcribe_audio (fs : List String) (tempPath : String)
    (copyRes : Except String Unit) (oracle : String → Except String String) :
    List String × HandlerOutcome :=
  let fs1 := tempPath :: fs
  match copyRes with
  | Except.error e => (fs1, HandlerOutcome.uncaught e)
  | Except.ok _ =>
    match oracle tempPath with
    | Except.ok text =>
      (removeIfExists fs1 tempPath, HandlerOutcome.jsonOk [("text", text.trim)])
    | Except.error e =>
      (removeIfExists fs1 tempPath,
       HandlerOutcome.httpError 500 ("Transcription failed: " ++ e))

/-- Well-formedness of an action record: exactly the two shapes that
`record_macro` ever appends, and that `play_macro` handles. -/
def goodStep (s : Step) : Prop :=
  (s.type = "mouse" ∧ ∃ x y b, s.data = StepData.ptr x y b) ∨
  (s.type = "hotkey" ∧ s.data = StepData.keys ["ctrl", "v"])

/-- Safety predicate of the kill listener: whenever the held-keys set
contains the whole kill combination, `os._exit(1)` has been called. -/
def killInv (s : KillState) : Prop :=
  KILL_COMBO ⊆ s.held → s.exitCode = some 1

/-! ## Lemmas about the playback clock -/

theorem clockUpd_le (t : ℚ) (e : Effect) : t ≤ clockUpd t e := by
  cases e <;> simp [clockUpd]

theorem le_elapsedFrom (es : List Effect) (t : ℚ) : t ≤ elapsedFrom t es := by
  induction es generalizing t with
  | nil => exact le_refl t
  | cons e rest ih =>
    calc t ≤ clockUpd t e := clockUpd_le t e
    _ ≤ elapsedFrom (clockUpd t e) rest := ih (clockUpd t e)
    _ = elapsedFrom t (e :: rest) := rfl

theorem elapsedFrom_append (t : ℚ) (a b : List Effect) :
    elapsedFrom t (a ++ b) = elapsedFrom (elapsedFrom t a) b := by
  simp [elapsedFrom, List.foldl_append]

theorem t_le_elapsedFrom_playStep (s : Step) (t0 : ℚ) :
    s.t ≤ elapsedFrom t0 (playStep s).1 := by
  have h1 : elapsedFrom t0 (playStep s).1
      = elapsedFrom (max t0 s.t) (injectStep s).1 := rfl
  rw [h1]
  calc s.t ≤ max t0 s.t := le_max_right t0 s.t
  _ ≤ elapsedFrom (max t0 s.t) (injectStep s).1 := le_elapsedFrom _ _

/-! ## Lemmas about well-formed records and playback -/

theorem injectStep_good {s : Step} (h : goodStep s) : (injectStep s).2 = true := by
  rcases h with ⟨hty, x, y, b, hd⟩ | ⟨hty, hd⟩ <;>
    simp [injectStep, hty, hd]

theorem playStep_good_ok {s : Step} (h : goodStep s) : (playStep s).2 = true := by
  simpa [playStep] using injectStep_good h

theorem playSteps_ok :
    ∀ (steps : List Step), (∀ s ∈ steps, goodStep s) →
      (playSteps steps).2 = true := by
  intro steps
  induction steps with
  | nil => intro _; rfl
  | cons a rest ih =>
    intro h
    have ha : (playStep a).2 = true := playStep_good_ok (h a (List.mem_cons_self a rest))
    have hrest : (playSteps rest).2 = true :=
      ih (fun s hs => h s (List.mem_cons_of_mem a hs))
    simp [playSteps, ha, hrest]

theorem steps_t_le_elapsed :
    ∀ (steps : List Step), (∀ s ∈ steps, goodStep s) →
      ∀ (t0 : ℚ), ∀ s ∈ steps, s.t ≤ elapsedFrom t0 (playSteps steps).1 := by
  intro steps
  induction steps with
  | nil => intro _ t0 s hs; cases hs
  | cons a rest ih =>
    intro h t0 s hs
    have ha : (playStep a).2 = true := playStep_good_ok (h a (List.mem_cons_self a rest))
    have hfst : (playSteps (a :: rest)).1 = (playStep a).1 ++ (playSteps rest).1 := by
      simp [playSteps, ha]
    rw [hfst, elapsedFrom_append]
    rcases List.mem_cons.1 hs with rfl | hs'
    · calc s.t ≤ elapsedFrom t0 (playStep s).1 := t_le_elapsedFrom_playStep s t0
      _ ≤ elapsedFrom (elapsedFrom t0 (playStep s).1) (playSteps rest).1 :=
          le_elapsedFrom _ _
    · exact ih (fun u hu => h u (List.mem_cons_of_mem a hu))
        (elapsedFrom t0 (playStep a).1) s hs'

theorem playSteps_eq_flatten :
    ∀ (steps : List Step), (playSteps steps).2 = true →
      (playSteps steps).1 = (steps.map (fun s => (playStep s).1)).flatten := by
  intro steps
  induction steps with
  | nil => intro _; rfl
  | cons a rest ih =>
    intro hok
    by_cases hp : (playStep a).2 = true
    · simp only [playSteps, hp, if_true] at hok ⊢
      rw [List.map_cons, List.flatten_cons, ih hok]
    · simp only [playSteps, hp, if_false, Bool.false_eq_true] at hok

/-! ## Lemmas about the recorder invariant -/

theorem goodStep_mkMouseStep (t : ℚ) (x y : Int) (btn : Button) :
    goodStep (mkMouseStep t x y btn) :=
  Or.inl ⟨rfl, x, y, btn, rfl⟩

theorem goodStep_mkHotkeyStep (t : ℚ) : goodStep (mkHotkeyStep t) :=
  Or.inr ⟨rfl, rfl⟩

theorem on_click_good {st : RecorderState} (h : ∀ s ∈ st.steps, goodStep s)
    (t : ℚ) (x y : Int) (btn : Button) (pressed : Bool) :
    ∀ s ∈ (on_click st t x y btn pressed).steps, goodStep s := by
  intro s hs
  unfold on_click at hs
  split at hs
  · exact h s hs
  · split at hs
    · exact h s hs
    · split at hs
      · rcases List.mem_append.1 hs with h1 | h1
        · exact h s h1
        · rcases List.mem_singleton.1 h1 with rfl
          exact goodStep_mkMouseStep t x y btn
      · exact h s hs

theorem on_press_steps (st : RecorderState) (k : Key) :
    (on_press st k).steps = st.steps := by
  unfold on_press
  split
  · rfl
  · split <;> rfl

theorem on_release_good {st : RecorderState} (h : ∀ s ∈ st.steps, goodStep s)
    (t : ℚ) (k : Key) :
    ∀ s ∈ (on_release st t k).steps, goodStep s := by
  intro s hs
  unfold on_release at hs
  split at hs
  · exact h s hs
  · simp only at hs
    split at hs
    · rcases List.mem_append.1 hs with h1 | h1
      · exact h s h1
      · rcases List.mem_singleton.1 h1 with rfl
        exact goodStep_mkHotkeyStep t
    · exact h s hs

theorem handleREvent_good {st : RecorderState} (h : ∀ s ∈ st.steps, goodStep s)
    (e : REvent) : ∀ s ∈ (handleREvent st e).steps, goodStep s := by
  cases e with
  | click t x y btn pressed => exact on_click_good h t x y btn pressed
  | press t k =>
    intro s hs
    rw [handleREvent, on_press_steps] at hs
    exact h s hs
  | release t k => exact on_release_good h t k

theorem foldl_handleREvent_good :
    ∀ (evs : List REvent) (st : RecorderState), (∀ s ∈ st.steps, goodStep s) →
      ∀ s ∈ (evs.foldl handleREvent st).steps, goodStep s := by
  intro evs
  induction evs with
  | nil => intro st h; exact h
  | cons e rest ih =>
    intro st h
    exact ih (handleREvent st e) (handleREvent_good h e)

theorem recordMacroRun_good (prior : List Step) (held : Finset Key)
    (evs : List REvent) :
    ∀ s ∈ (recordMacroRun prior held evs).steps, goodStep s := by
  apply foldl_handleREvent_good
  intro s hs
  cases hs

/-! ## Lemmas about the kill listener -/

theorem killRunStep_inv {s : KillState} (h : killInv s) (e : KEvent) :
    killInv (killRunStep s e) := by
  unfold killInv at h ⊢
  cases hx : s.exitCode with
  | some c =>
    have hstep : killRunStep s e = s := by unfold killRunStep; rw [hx]
    rw [hstep]
    exact h
  | none =>
    have hnot : ¬ KILL_COMBO ⊆ s.held := by
      intro hc
      rw [h hc] at hx
      cases hx
    cases e with
    | press k =>
      have hstep : killRunStep s (KEvent.press k)
          = { held := (_kill_press s.held k).1, exitCode := (_kill_press s.held k).2 } := by
        unfold killRunStep; rw [hx]
      rw [hstep]
      unfold _kill_press
      by_cases hk : k ∈ KILL_COMBO
      · simp only [hk, if_true]
        by_cases hsub : KILL_COMBO ⊆ insert k s.held
        · simp [hsub]
        · simp only [hsub, if_false]
          intro hc
          exact hc.elim
      · simp only [hk, if_false]
        intro hc
        exact absurd hc hnot
    | release k =>
      have hstep : killRunStep s (KEvent.release k)
          = { held := _kill_release s.held k, exitCode := none } := by
        unfold killRunStep; rw [hx]
      rw [hstep]
      intro hc
      exact absurd (hc.trans (Finset.erase_subset k s.held)) hnot

theorem killRun_inv (evs : List KEvent) : killInv (killRun evs) := by
  unfold killRun
  have h0 : killInv { held := ∅, exitCode := none } := by
    intro hc
    exact absurd hc (by decide)
  induction evs with
  | nil => exact h0
  | cons e rest ih =>
    have : ∀ (l : List KEvent) (s : KillState), killInv s →
        killInv (l.foldl killRunStep s) := by
      intro l
      induction l with
      | nil => intro s hs; exact hs
      | cons x xs ihx => intro s hs; exact ihx _ (killRunStep_inv hs x)
    exact this (e :: rest) _ h0

theorem playMacroTrace_cons (steps : List Step) (text : String) (h : steps ≠ []) :
    playMacroTrace steps text
      = (Effect.copy text :: (playSteps steps).1, (playSteps steps).2) := by
  cases steps with
  | nil => exact absurd rfl h
  | cons a rest => rfl

/-! ## Claim theorems -/

/-- C1: for every non-empty recorded action-record sequence, playback
blocks until the elapsed time reaches each record's offset in turn, so the
total playback duration is at least the offset of the last record. -/
theorem C1_playback_duration_ge_last_offset
    (prior : List Step) (held : Finset Key) (evs : List REvent) (text : String)
    (l : Step)
    (h : (recordMacroRun prior held evs).steps.getLast? = some l) :
    l.t ≤ elapsedAfter (playMacroTrace (recordMacroRun prior held evs).steps text).1 := by
  have hne : (recordMacroRun prior held evs).steps ≠ [] := by
    intro hnil
    rw [hnil] at h
    cases h
  have hmem : l ∈ (recordMacroRun prior held evs).steps := by
    rcases List.mem_getLast?_eq_getLast
      (l := (recordMacroRun prior held evs).steps) (x := l) h with ⟨hne', rfl⟩
    exact List.getLast_mem hne'
  rw [playMacroTrace_cons (recordMacroRun prior held evs).steps text hne]
  exact steps_t_le_elapsed (recordMacroRun prior held evs).steps
    (recordMacroRun_good prior held evs) 0 l hmem

/-- C1 witness: a session that recorded one click at offset 5. -/
theorem C1_witness :
    ((recordMacroRun [] ∅ [REvent.click 5 10 20 Button.left true]).steps.getLast?
      = some (mkMouseStep 5 10 20 Button.left)) ∧
    (mkMouseStep 5 10 20 Button.left).t ≤
      elapsedAfter (playMacroTrace
        (recordMacroRun [] ∅ [REvent.click 5 10 20 Button.left true]).steps "hi").1 :=
  ⟨by decide,
   C1_playback_duration_ge_last_offset [] ∅
     [REvent.click 5 10 20 Button.left true] "hi"
     (mkMouseStep 5 10 20 Button.left) (by decide)⟩

/-- C2: with an empty recorded sequence, `play_macro` performs no action at
all — no clipboard write, no input injection, no waiting — for any text. -/
theorem C2_empty_macro_is_noop (text : String) :
    playMacroTrace [] text = ([], true) := rfl

/-- C3: when the uploaded file has been copied, the `/transcribe` handler
removes the temporary file before returning, and it answers with the JSON
body on transcription success and with a 500 `HTTPException` carrying the
exception text on transcription failure. -/
theorem C3_temp_file_cleanup (fs : List String) (p : String)
    (oracle : String → Except String String) (hp : p ∉ fs) :
    p ∉ (transcribe_audio fs p (Except.ok ()) oracle).1 ∧
    (∀ txt, oracle p = Except.ok txt →
      (transcribe_audio fs p (Except.ok ()) oracle).2
        = HandlerOutcome.jsonOk [("text", txt.trim)]) ∧
    (∀ e, oracle p = Except.error e →
      (transcribe_audio fs p (Except.ok ()) oracle).2
        = HandlerOutcome.httpError 500 ("Transcription failed: " ++ e)) := by
  have hrm : removeIfExists (p :: fs) p = fs := by
    simp [removeIfExists]
  refine ⟨?_, ?_, ?_⟩
  · unfold transcribe_audio
    cases ho : oracle p <;> simp [ho, hrm, hp]
  · intro txt ho
    simp [transcribe_audio, ho]
  · intro e ho
    simp [transcribe_audio, ho]

/-- C3 witness: a concrete failing transcription leaves no temp file. -/
theorem C3_witness :
    ("t.wav" ∉ ([] : List String)) ∧
    "t.wav" ∉ (transcribe_audio [] "t.wav" (Except.ok ())
      (fun _ => Except.error "boom")).1 :=
  ⟨by decide,
   (C3_temp_file_cleanup [] "t.wav" (fun _ => Except.error "boom") (by decide)).1⟩

/-- C4: when the capture loop buffered no chunks, `record_until_toggle`
returns `False` and leaves the filesystem untouched. -/
theorem C4_no_chunks_no_file (iters : List (Option (List Int)))
    (fs : List (String × WavFile)) (path : String) (sr : Nat)
    (h : iters.filterMap id = []) :
    record_until_toggle iters fs path sr = (fs, false) := by
  simp [record_until_toggle, h]

/-- C4 witness: every loop iteration timed out empty-handed. -/
theorem C4_witness :
    (([none, none] : List (Option (List Int))).filterMap id = []) ∧
    record_until_toggle [none, none] [] "a.wav" 16000 = ([], false) :=
  ⟨rfl, C4_no_chunks_no_file [none, none] [] "a.wav" 16000 rfl⟩

/-- C5: `send_audio` yields the sentinel `<err>` whenever the response is
not OK or its JSON lacks the `text` field, and otherwise yields the value
of the `text` field. -/
theorem C5_sentinel_on_failure (r : HttpResponse) :
    ((r.ok = false ∨ jsonGet r.body "text" = none) → send_audio r = "<err>") ∧
    (∀ v, r.ok = true → jsonGet r.body "text" = some v → send_audio r = v) := by
  constructor
  · rintro (h | h)
    · simp [send_audio, h]
    · cases hok : r.ok
      · simp [send_audio, hok]
      · simp [send_audio, hok, h]
  · intro v hok hv
    simp [send_audio, hok, hv]

/-- C5 witness: a failed response, a success without `text`, and a success
with `text`. -/
theorem C5_witness :
    send_audio { ok := false, body := [("text", "x")] } = "<err>" ∧
    send_audio { ok := true, body := [] } = "<err>" ∧
    send_audio { ok := true, body := [("text", "hi")] } = "hi" :=
  ⟨(C5_sentinel_on_failure { ok := false, body := [("text", "x")] }).1 (Or.inl rfl),
   (C5_sentinel_on_failure { ok := true, body := [] }).1 (Or.inr rfl),
   (C5_sentinel_on_failure { ok := true, body := [("text", "hi")] }).2 "hi" rfl
     (by decide)⟩

/-- C6: `record_macro` first clears the shared macro list, so the outcome
of a session never depends on records of a prior session, and a session
begins with the empty sequence. -/
theorem C6_clear_discards_prior (prior : List Step) (held : Finset Key)
    (evs : List REvent) :
    recordMacroRun prior held evs = recordMacroRun [] held evs ∧
    (recordMacroRun prior held []).steps = [] :=
  ⟨rfl, rfl⟩

/-- C7: on a non-empty sequence, `play_macro` puts the text on the
clipboard before any record is replayed, and (when no step raises) the
replayed effects are exactly the per-record effect blocks in recorded list
order. -/
theorem C7_copy_first_then_in_order (steps : List Step) (text : String)
    (h : steps ≠ []) :
    (playMacroTrace steps text).1 = Effect.copy text :: (playSteps steps).1 ∧
    ((playSteps steps).2 = true →
      (playSteps steps).1 = (steps.map (fun s => (playStep s).1)).flatten) := by
  constructor
  · rw [playMacroTrace_cons steps text h]
  · exact playSteps_eq_flatten steps

/-- C7 witness: a one-record sequence. -/
theorem C7_witness :
    ([mkHotkeyStep 0] ≠ ([] : List Step)) ∧
    ((playMacroTrace [mkHotkeyStep 0] "x").1
        = Effect.copy "x" :: (playSteps [mkHotkeyStep 0]).1 ∧
      ((playSteps [mkHotkeyStep 0]).2 = true →
        (playSteps [mkHotkeyStep 0]).1
          = ([mkHotkeyStep 0].map (fun s => (playStep s).1)).flatten)) :=
  ⟨by decide, C7_copy_first_then_in_order [mkHotkeyStep 0] "x" (by decide)⟩

/-- C8: with at least one buffered chunk, `record_until_toggle` returns
`True` and the path now holds a single-channel 16 kHz waveform whose
samples are the concatenation of the chunks in arrival order. -/
theorem C8_writes_concatenation (iters : List (Option (List Int)))
    (fs : List (String × WavFile)) (path : String)
    (h : iters.filterMap id ≠ []) :
    (record_until_toggle iters fs path 16000).2 = true ∧
    lookupFile (record_until_toggle iters fs path 16000).1 path
      = some { rate := 16000, channels := 1,
               samples := (iters.filterMap id).flatten } := by
  have hne : (iters.filterMap id).isEmpty = false := by
    cases hfm : iters.filterMap id with
    | nil => exact absurd hfm h
    | cons a l => rfl
  constructor
  · simp [record_until_toggle, hne]
  · simp [record_until_toggle, hne, lookupFile, List.find?]

/-- C8 witness: two chunks and one timeout. -/
theorem C8_witness :
    (([some [1, 2], none, some [3]] : List (Option (List Int))).filterMap id ≠ []) ∧
    ((record_until_toggle [some [1, 2], none, some [3]] [] "a.wav" 16000).2 = true ∧
      lookupFile (record_until_toggle [some [1, 2], none, some [3]] [] "a.wav" 16000).1
          "a.wav"
        = some { rate := 16000, channels := 1,
                 samples := (([some [1, 2], none, some [3]] :
                   List (Option (List Int))).filterMap id).flatten }) :=
  ⟨by decide,
   C8_writes_concatenation [some [1, 2], none, some [3]] [] "a.wav" (by decide)⟩

/-- C9: after any stream of key events handled by the kill listener, if the
held-keys set contains every key of the kill combination then the process
has been terminated with exit status 1. -/
theorem C9_kill_combo_exit_status_one (evs : List KEvent)
    (h : KILL_COMBO ⊆ (killRun evs).held) :
    (killRun evs).exitCode = some 1 :=
  killRun_inv evs h

/-- C9 witness: pressing left Ctrl, left Shift and `q` in turn. -/
theorem C9_witness :
    KILL_COMBO ⊆ (killRun [KEvent.press Key.ctrl_l, KEvent.press Key.shift_l,
      KEvent.press (Key.keyCode (some 'q') none)]).held ∧
    (killRun [KEvent.press Key.ctrl_l, KEvent.press Key.shift_l,
      KEvent.press (Key.keyCode (some 'q') none)]).exitCode = some 1 :=
  ⟨by decide,
   C9_kill_combo_exit_status_one [KEvent.press Key.ctrl_l, KEvent.press Key.shift_l,
     KEvent.press (Key.keyCode (some 'q') none)] (by decide)⟩

/-- C10: every record the recorder ever appends is a mouse record with a
three-component payload or a hotkey record with payload `("ctrl", "v")`,
so the player's case analysis covers every recorded step and playback
never raises. -/
theorem C10_recorder_player_agreement (prior : List Step) (held : Finset Key)
    (evs : List REvent) :
    (∀ s ∈ (recordMacroRun prior held evs).steps, goodStep s) ∧
    (playSteps (recordMacroRun prior held evs).steps).2 = true :=
  ⟨recordMacroRun_good prior held evs,
   playSteps_ok _ (recordMacroRun_good prior held evs)⟩

/-- C10 witness: a session with one click and one Ctrl+V. -/
theorem C10_witness :
    (∀ s ∈ (recordMacroRun [] ∅ [REvent.click 1 2 3 Button.left true,
        REvent.press 2 Key.ctrl_l,
        REvent.release 3 (Key.keyCode (some 'v') (some 86))]).steps, goodStep s) ∧
    (playSteps (recordMacroRun [] ∅ [REvent.click 1 2 3 Button.left true,
        REvent.press 2 Key.ctrl_l,
        REvent.release 3 (Key.keyCode (some 'v') (some 86))]).steps).2 = true :=
  C10_recorder_player_agreement [] ∅
    [REvent.click 1 2 3 Button.left true, REvent.press 2 Key.ctrl_l,
     REvent.release 3 (Key.keyCode (some 'v') (some 86))]

end VC
